import Mathlib

/-!
Verification development for the paginated result aggregation engine of
`crm5_bo.py` (class `CRM5BackofficeAdmin`).

The embedding models the four pagination routines of the source:

* `fetch_page`      — `_fetch_page` (lines 179-217): parameter mutation,
  HTTP error propagation, missing-`content` error, `total` defaulting.
* `fetch_all`       — `_fetch_all` (lines 219-278): the sequential loop.
* `searchMax`       — `_fetch_all_parallel_search_max` (lines 280-348):
  exponential probe (10 iterations, multiplier 10) followed by binary
  search, including the bare-`int` return at line 316 and the possible
  `KeyError` at line 314.
* `parRun`          — `_fetch_all_parallel` (lines 350-431): deletion of
  probed pages beyond the discovered bound, worker-pool dispatch over
  `range(1, max_page)` with swallowed per-page exceptions, insertion-order
  merge, and the `max_page * size + last_page_size` total.

The remote backend is abstracted, exactly as the spec's `PageClient`
boundary prescribes, as a function from the requested page number
(`none` = request without a `page` parameter) to an optional raw JSON
envelope (`none` = non-200 HTTP status, raising `CRM5APIError`).
Worker-pool concurrency is modelled by an explicit completion order:
the list of submitted page numbers in the order their futures complete.
Python `dict`s preserve insertion order, so the page map is an
association list with Python's insert/overwrite/delete semantics.
-/

/-- Raw `paging` object of the JSON envelope, before `_fetch_page`
normalisation: `total` may be absent (`None`). -/
structure RawPaging where
  size : Int
  total : Option Int
  has_more : Bool
  deriving DecidableEq, Repr

/-- Raw JSON envelope returned by the backend: `content` may be `None`. -/
structure RawResp (α : Type) where
  content : Option (List α)
  paging : RawPaging
  deriving DecidableEq, Repr

/-- The remote backend, keyed by the `page` query parameter of the request
(`none` when `_fetch_page` is called without `page_num`). A `none` result
models a non-200 HTTP status, which `_make_request` turns into
`CRM5APIError`. -/
abbrev Backend (α : Type) := Option Int → Option (RawResp α)

/-- Errors that can surface from the engine, mirroring the Python
exceptions: `CRM5APIError` for HTTP failures and missing content, plus the
`TypeError`/`KeyError` the probe can raise. -/
inductive PyError where
  | http
  | noContent
  | typeErrorUnpack
  | keyErrorProbe
  deriving DecidableEq, Repr

/-- Page data after `_fetch_page` normalisation: `content` is present and
`paging['total']` has been defaulted to `paging['size']` when absent. -/
structure PageData (α : Type) where
  content : List α
  size : Int
  total : Int
  has_more : Bool
  deriving DecidableEq, Repr

/-- The result dictionary `_fetch_all` returns: the single-page path
returns the first page's dict unchanged (no `pages` key, hence `none`),
the multi-page path sets `pages` and recomputes `total`. -/
structure AggResult (α : Type) where
  content : List α
  size : Int
  total : Int
  has_more : Bool
  pages : Option Int
  deriving DecidableEq, Repr

/-- The result dictionary `_fetch_all_parallel` returns (its blank
template has only `content`, `paging.pages` and `paging.total`). -/
structure ParAggResult (α : Type) where
  content : List α
  pages : Int
  total : Int
  deriving DecidableEq, Repr

/-- Outcome of running one of the aggregation entry points: a value, a
raised exception, or fuel exhaustion (the sequential loop in the source
has no iteration cap, so the model gets explicit fuel). -/
inductive Outcome (β : Type) where
  | ok (r : β)
  | err (e : PyError)
  | diverge
  deriving DecidableEq, Repr

/-- The caller's query-parameter mapping (`get_params`). Only integer
values matter to the engine (`size`, `page`); other keys are carried
opaquely. -/
abbrev Params := String → Option Int

/-- The empty parameter mapping. -/
def pempty : Params := fun _ => none

/-- `d[k] = v` on a parameter mapping. -/
def pinsert (m : Params) (k : String) (v : Int) : Params :=
  fun k' => if k' = k then some v else m k'

/-- The page map `pages_dict`, with Python `dict` semantics: insertion
order is preserved, assignment to an existing key keeps its position. -/
abbrev Dict (α : Type) := List (Int × PageData α)

/-- `pages_dict[page] = value`: overwrite in place when the key exists,
append otherwise. -/
def dinsert (d : Dict α) (k : Int) (v : PageData α) : Dict α :=
  if d.any (fun kv => kv.1 == k) then
    d.map (fun kv => if kv.1 == k then (k, v) else kv)
  else
    d ++ [(k, v)]

/-- `pages_dict[page]` lookup. -/
def dlookup (d : Dict α) (k : Int) : Option (PageData α) :=
  (d.find? (fun kv => kv.1 == k)).map (fun kv => kv.2)

/-- `self._default_page_size` (the constructor always sets 100). -/
def default_page_size : Int := 100

/-- `_fetch_page` (source lines 179-217). Inserts `size` into the
caller's mapping when absent, sets `page` when a page number is given,
issues the request, raises on non-200 and on missing `content`, and
defaults `paging['total']` to `paging['size']` when it is `None`.
Returns the outcome together with the (mutated) parameter mapping. -/
def fetch_page (be : Backend α) (ps : Params) (pn : Option Int) :
    Except PyError (PageData α) × Params :=
  let ps1 := if ps "size" = none then pinsert ps "size" default_page_size else ps
  let ps2 := match pn with
    | some n => pinsert ps1 "page" n
    | none => ps1
  match be pn with
  | none => (Except.error PyError.http, ps2)
  | some raw =>
    match raw.content with
    | none => (Except.error PyError.noContent, ps2)
    | some items =>
      (Except.ok
        { content := items
          size := raw.paging.size
          total := raw.paging.total.getD raw.paging.size
          has_more := raw.paging.has_more },
       ps2)

/-- The `while True` loop of `_fetch_all` (source lines 257-273), plus
the post-loop `pages`/`total` assignment (lines 275-276). `sz` is the
first page's `paging['size']`, which the final dict still carries. -/
def fetch_all_from (be : Backend α) (sz : Int) :
    Params → List α → Int → Nat → Outcome (AggResult α) × Params
  | ps, _, _, 0 => (Outcome.diverge, ps)
  | ps, acc, curr, Nat.succ fuel =>
    let fp := fetch_page be ps (some curr)
    match fp.1 with
    | Except.error e => (Outcome.err e, fp.2)
    | Except.ok pd =>
      let acc' := acc ++ pd.content
      if pd.has_more then
        fetch_all_from be sz fp.2 acc' (curr + 1) fuel
      else
        (Outcome.ok
          { content := acc'
            size := sz
            total := (acc'.length : Int)
            has_more := false
            pages := some curr },
         fp.2)

/-- `_fetch_all` (source lines 219-278). Fetch the first page (no `page`
parameter); return it unchanged when `has_more` is false; otherwise pin
the observed page size into the parameter mapping and loop from page 2. -/
def fetch_all (be : Backend α) (ps0 : Params) (fuel : Nat) :
    Outcome (AggResult α) × Params :=
  let ps := if ps0 "size" = none then pinsert ps0 "size" default_page_size else ps0
  let fp := fetch_page be ps none
  match fp.1 with
  | Except.error e => (Outcome.err e, fp.2)
  | Except.ok pd =>
    if pd.has_more then
      let ps'' := if fp.2 "size" = none ∨ fp.2 "size" ≠ some pd.size then
          pinsert fp.2 "size" pd.size
        else fp.2
      fetch_all_from be pd.size ps'' pd.content 2 fuel
    else
      (Outcome.ok
        { content := pd.content
          size := pd.size
          total := pd.total
          has_more := pd.has_more
          pages := none },
       fp.2)

/-- How `_fetch_all_parallel_search_max` can leave its caller: a real
`(page, size)` pair from line 338, the `(-1, -1)` sentinel from line 348,
the bare `int` from line 316 (which the caller's tuple unpacking turns
into a `TypeError`), the `KeyError` from line 314 when the exponential
phase exhausts its 10 iterations, a propagated fetch exception, or fuel
exhaustion of the model. -/
inductive ProbeResult where
  | found (p s : Int)
  | notFound
  | bareInt (p : Int)
  | keyError
  | fetchErr (e : PyError)
  | diverge
  deriving DecidableEq, Repr

/-- State threaded through and out of the probe: the parameter mapping,
the page map, the chronological list of page numbers for which a fetch
request was issued, and the probe's result. -/
structure PSt (α : Type) where
  ps : Params
  dict : Dict α
  trace : List Int
  res : ProbeResult

/-- Exit of the exponential phase: early `break` on a `has_more == false`
page, exhaustion of the 10 iterations (carrying the already multiplied
`page` variable), or a raised fetch error. -/
inductive ExpOut where
  | stop (p : Int)
  | exhaust (p : Int)
  | fail (e : PyError)
  deriving DecidableEq, Repr

/-- The `for _ in range(10)` exponential phase of the probe (source lines
295-310): fetch `page`, record it, stop on `has_more == false`, otherwise
multiply `page` by 10. -/
def expPhase (be : Backend α) :
    Params → Dict α → List Int → Int → Nat → Params × Dict α × List Int × ExpOut
  | ps, d, tr, page, 0 => (ps, d, tr, ExpOut.exhaust page)
  | ps, d, tr, page, Nat.succ n =>
    let fp := fetch_page be ps (some page)
    match fp.1 with
    | Except.error e => (fp.2, d, tr ++ [page], ExpOut.fail e)
    | Except.ok pd =>
      let d' := dinsert d page pd
      let tr' := tr ++ [page]
      if pd.has_more then expPhase be fp.2 d' tr' (page * 10) n
      else (fp.2, d', tr', ExpOut.stop page)

/-- The binary-search loop of the probe (source lines 324-346). The loop
guard `lower_bound <= upper_bound` is checked before each fetch; the
candidate for the next iteration is recomputed from the updated bounds
with Python floor division. -/
def binLoop (be : Backend α) :
    Params → Dict α → List Int → Int → Int → Int → Nat → PSt α
  | ps, d, tr, _, _, _, 0 => ⟨ps, d, tr, ProbeResult.diverge⟩
  | ps, d, tr, lo, hi, cand, Nat.succ n =>
    if lo ≤ hi then
      let fp := fetch_page be ps (some cand)
      match fp.1 with
      | Except.error e => ⟨fp.2, d, tr ++ [cand], ProbeResult.fetchErr e⟩
      | Except.ok pd =>
        let d' := dinsert d cand pd
        let tr' := tr ++ [cand]
        if pd.has_more then
          binLoop be fp.2 d' tr' (cand + 1) hi (Int.fdiv ((cand + 1) + hi) 2) n
        else if pd.size ≠ 0 then
          ⟨fp.2, d', tr', ProbeResult.found cand pd.size⟩
        else
          binLoop be fp.2 d' tr' lo (cand - 1) (Int.fdiv (lo + (cand - 1)) 2) n
    else ⟨ps, d, tr, ProbeResult.notFound⟩

/-- Lines 312-348 of the probe, after the exponential phase stopped at or
overshot to `p`: look the page up in the map (`KeyError` when absent —
this is exactly the exhaustion path, where `p = 10^10` was never fetched),
return the bare page number when its size is nonzero, otherwise binary
search in `[p / 10, p]` with first candidate `p // 2`. -/
def searchMaxCont (be : Backend α) (ps : Params) (d : Dict α) (tr : List Int)
    (p : Int) (fuel : Nat) : PSt α :=
  match dlookup d p with
  | none => ⟨ps, d, tr, ProbeResult.keyError⟩
  | some pd =>
    if pd.size ≠ 0 then ⟨ps, d, tr, ProbeResult.bareInt p⟩
    else binLoop be ps d tr (Int.fdiv p 10) p (Int.fdiv p 2) fuel

/-- `_fetch_all_parallel_search_max` (source lines 280-348). -/
def searchMax (be : Backend α) (ps : Params) (d : Dict α) (tr : List Int)
    (fuel : Nat) : PSt α :=
  match expPhase be ps d tr 1 10 with
  | (ps', d', tr', ExpOut.fail e) => ⟨ps', d', tr', ProbeResult.fetchErr e⟩
  | (ps', d', tr', ExpOut.stop p) => searchMaxCont be ps' d' tr' p fuel
  | (ps', d', tr', ExpOut.exhaust p) => searchMaxCont be ps' d' tr' p fuel

/-- The `as_completed` collection loop of `_fetch_all_parallel` (source
lines 416-422): workers fetch their page; a successful result is written
into the page map, an exception is printed and swallowed. The argument
list is the completion order of the submitted futures. -/
def workers (be : Backend α) :
    Params → Dict α → List Int → List Int → Dict α × Params × List Int
  | ps, d, tr, [] => (d, ps, tr)
  | ps, d, tr, p :: rest =>
    let fp := fetch_page be ps (some p)
    match fp.1 with
    | Except.ok pd => workers be fp.2 (dinsert d p pd) (tr ++ [p]) rest
    | Except.error _ => workers be fp.2 d (tr ++ [p]) rest

/-- Full record of one `_fetch_all_parallel` run: the outcome, the final
parameter mapping, the final page map, the chronological fetch trace
across probe and worker pool, the unpacked `max_page`, the page numbers
retained from the probe after the deletion pass, and the page numbers
submitted to the worker pool (in submission order). -/
structure ParRun (α : Type) where
  out : Outcome (ParAggResult α)
  params : Params
  dict : Dict α
  trace : List Int
  maxPage : Int
  probeKeys : List Int
  submitted : List Int

/-- `range(1, mp)` as a list of `Int`. -/
def intRange1 (mp : Int) : List Int :=
  (List.range (mp - 1).toNat).map (fun i => Int.ofNat i + 1)

/-- Lines 388-431 of `_fetch_all_parallel`, entered once `max_page` and
`last_page_size` were successfully unpacked: delete probed pages beyond
`max_page`, submit every page of `range(1, max_page)` not already in the
map, collect worker results in completion order, concatenate the map's
pages in insertion order, and fill in `pages` and the
`max_page * size + last_page_size` total. -/
def parAssemble (be : Backend α) (st : PSt α) (mp ls : Int) (order : List Int) :
    ParRun α :=
  let d2 := st.dict.filter (fun kv => decide (kv.1 ≤ mp))
  let keys2 := d2.map (fun kv => kv.1)
  let submitted := (intRange1 mp).filter (fun p => ! keys2.contains p)
  let w := workers be st.ps d2 st.trace order
  let content := (w.1.map (fun kv => kv.2.content)).flatten
  let sz := (w.2.1 "size").getD 0
  { out := Outcome.ok { content := content, pages := mp, total := mp * sz + ls }
    params := w.2.1
    dict := w.1
    trace := w.2.2
    maxPage := mp
    probeKeys := keys2
    submitted := submitted }

/-- `_fetch_all_parallel` (source lines 350-431). The probe's non-pair
returns surface as the exceptions Python would raise at the unpacking
assignment on line 382. -/
def parRun (be : Backend α) (ps0 : Params) (order : List Int) (fuel : Nat) :
    ParRun α :=
  let ps := if ps0 "size" = none then pinsert ps0 "size" default_page_size else ps0
  let st := searchMax be ps [] [] fuel
  match st.res with
  | ProbeResult.found mp ls => parAssemble be st mp ls order
  | ProbeResult.notFound => parAssemble be st (-1) (-1) order
  | ProbeResult.bareInt _ =>
    ⟨Outcome.err PyError.typeErrorUnpack, st.ps, st.dict, st.trace, 0, [], []⟩
  | ProbeResult.keyError =>
    ⟨Outcome.err PyError.keyErrorProbe, st.ps, st.dict, st.trace, 0, [], []⟩
  | ProbeResult.fetchErr e =>
    ⟨Outcome.err e, st.ps, st.dict, st.trace, 0, [], []⟩
  | ProbeResult.diverge =>
    ⟨Outcome.diverge, st.ps, st.dict, st.trace, 0, [], []⟩

/-- What the probe's decision logic can observe about a page: `none` when
fetching it raises, otherwise the `(has_more, size)` pair of its paging
metadata. -/
def probeSees (be : Backend α) (p : Int) : Option (Bool × Int) :=
  match be (some p) with
  | none => none
  | some raw =>
    match raw.content with
    | none => none
    | some _ => some (raw.paging.has_more, raw.paging.size)

/-- The final page map sorted by ascending page number, then
concatenated — the ordering the spec claims for the merged items. -/
def ascMerge (d : Dict α) : List α :=
  ((List.insertionSort (fun a b => a.1 ≤ b.1) d).map (fun kv => kv.2.content)).flatten

/-! ### Concrete backends used as witnesses and counterexamples -/

/-- A backend whose only page holds one item but declares no `total` and
`size = 100`, reporting `has_more == false`. -/
def c1be : Backend Nat := fun _ => some ⟨some [7], ⟨100, none, false⟩⟩

/-- A two-page backend: the first request returns two items with
`has_more == true`, page 2 returns one item with `has_more == false`. -/
def seqbe : Backend Nat := fun pn =>
  match pn with
  | none => some ⟨some [1, 2], ⟨2, none, true⟩⟩
  | some 2 => some ⟨some [3], ⟨1, none, false⟩⟩
  | _ => some ⟨some [], ⟨0, none, false⟩⟩

/-- A five-page backend: pages 1-4 hold one item each with
`has_more == true`, page 5 holds one item with `has_more == false`,
everything beyond is empty. The probe fetches pages 1, 10 and 5. -/
def c2be : Backend Nat := fun pn =>
  match pn with
  | some 1 => some ⟨some [1], ⟨1, none, true⟩⟩
  | some 2 => some ⟨some [2], ⟨1, none, true⟩⟩
  | some 3 => some ⟨some [3], ⟨1, none, true⟩⟩
  | some 4 => some ⟨some [4], ⟨1, none, true⟩⟩
  | some 5 => some ⟨some [50], ⟨1, none, false⟩⟩
  | _ => some ⟨some [], ⟨0, none, false⟩⟩

/-- Like `c2be`, but fetching page 3 fails with a non-200 HTTP status. -/
def c3be : Backend Nat := fun pn =>
  match pn with
  | some 3 => none
  | _ => c2be pn

/-- A backend whose page 1 reports `has_more == false` with two items, so
the exponential phase stops immediately on a nonzero-size page. -/
def c4be : Backend Nat := fun _ => some ⟨some [7, 8], ⟨2, none, false⟩⟩

/-- A backend on which every page reports `has_more == true`, so the
exponential phase runs out of its 10 iterations. -/
def c5be : Backend Nat := fun _ => some ⟨some [0], ⟨1, none, true⟩⟩

/-- A consistent 101-page backend: pages 1-100 are full with
`has_more == true`, page 101 is the nonzero last page with
`has_more == false`, every later page is empty with `has_more == false`. -/
def c7be : Backend Nat := fun pn =>
  match pn with
  | some p =>
    if p ≤ 100 then some ⟨some [p.toNat], ⟨1, none, true⟩⟩
    else if p = 101 then some ⟨some [101], ⟨1, none, false⟩⟩
    else some ⟨some [], ⟨0, none, false⟩⟩
  | none => some ⟨some [], ⟨0, none, false⟩⟩

/-- A backend on which every page, page 1 included, is empty with
`has_more == false`: the empty-result edge case. -/
def c8be : Backend Nat := fun _ => some ⟨some [], ⟨0, none, false⟩⟩

/-- A backend that always fails with a non-200 HTTP status. -/
def c9be : Backend Nat := fun _ => none

/-! ### C1 -/

/-- Claim C1 fails on the code: on a backend whose single page
(`has_more == false`) holds one item but declares no `total` (so
`_fetch_page` defaults it to `paging['size'] = 100`), `_fetch_all`
returns that page unchanged, with `total = 100` while `content` has
length 1. The single-page path never recomputes `total`. -/
theorem C1_counterexample :
    ¬ (∀ r : AggResult Nat, (fetch_all c1be pempty 5).1 = Outcome.ok r →
        r.total = (r.content.length : Int)) := by
  intro h
  exact absurd
    (h { content := [7], size := 100, total := 100, has_more := false,
         pages := none } (by decide))
    (by decide)

/-- Helper: every successful exit of the sequential `while True` loop
carries `total = len(content)` and a `pages` key (source lines 275-276). -/
theorem fetch_all_from_total (be : Backend α) (sz : Int) :
    ∀ (fuel : Nat) (ps : Params) (acc : List α) (curr : Int) (r : AggResult α),
      (fetch_all_from be sz ps acc curr fuel).1 = Outcome.ok r →
      r.total = (r.content.length : Int) ∧ r.pages.isSome := by
  intro fuel
  induction fuel with
  | zero => intro ps acc curr r h; simp [fetch_all_from] at h
  | succ n ih =>
    intro ps acc curr r h
    cases h1 : (fetch_page be ps (some curr)).1 with
    | error e => simp [fetch_all_from, h1] at h
    | ok pd =>
      simp only [fetch_all_from, h1] at h
      by_cases h2 : pd.has_more = true
      · rw [if_pos h2] at h
        exact ih _ _ _ _ h
      · rw [if_neg h2] at h
        simp only [Outcome.ok.injEq] at h
        subst h
        exact ⟨rfl, rfl⟩

/-- Claim C1 amended: for every sequential aggregation that returns
successfully after fetching at least two pages (equivalently, whose
result carries a `pages` count), the returned `total` equals the length
of the returned `content`. The single-page sequential path instead
returns the backend-declared (or size-defaulted) `total` unchanged, and
the parallel path computes `total` as
`max_page * size + last_page_size`; neither of those is guaranteed to
equal the item count. -/
theorem C1_amended (be : Backend α) (ps : Params) (fuel : Nat)
    (r : AggResult α) (h : (fetch_all be ps fuel).1 = Outcome.ok r)
    (hp : r.pages ≠ none) :
    r.total = (r.content.length : Int) := by
  cases h1 : (fetch_page be
      (if ps "size" = none then pinsert ps "size" default_page_size else ps)
      none).1 with
  | error e => simp [fetch_all, h1] at h
  | ok pd =>
    simp only [fetch_all, h1] at h
    by_cases h2 : pd.has_more = true
    · rw [if_pos h2] at h
      exact (fetch_all_from_total be pd.size fuel _ _ _ _ h).1
    · rw [if_neg h2] at h
      simp only [Outcome.ok.injEq] at h
      subst h
      exact absurd rfl hp

/-- Witness for `C1_amended` at the two-page backend `seqbe`. -/
theorem C1_amended_witness :
    ({ content := [1, 2, 3], size := 2, total := 3, has_more := false,
       pages := some 2 } : AggResult Nat).total =
      (({ content := [1, 2, 3], size := 2, total := 3, has_more := false,
          pages := some 2 } : AggResult Nat).content.length : Int) :=
  C1_amended seqbe pempty 5 _ (by decide) (by decide)

/-! ### C2 -/

/-- The items of a page map concatenated in its own (insertion) order —
what line 425-426 of the source actually computes. -/
def joinContents (d : Dict α) : List α :=
  (d.map (fun kv => kv.2.content)).flatten

/-- Helper: flattening respects permutation of the outer list. -/
theorem perm_flatten {l₁ l₂ : List (List α)} (h : l₁.Perm l₂) :
    l₁.flatten.Perm l₂.flatten := by
  induction h with
  | nil => exact List.Perm.refl _
  | cons x _ ih => simpa using ih.append_left x
  | swap x y l =>
    simp only [List.flatten_cons, ← List.append_assoc]
    exact (List.perm_append_comm).append_right _
  | trans _ _ ih₁ ih₂ => exact ih₁.trans ih₂

/-- Helper: a successful parallel run's `content` is the concatenation of
the final page map's pages in the map's own insertion order. -/
theorem parRun_content (be : Backend α) (ps : Params) (order : List Int)
    (fuel : Nat) (r : ParAggResult α)
    (h : (parRun be ps order fuel).out = Outcome.ok r) :
    r.content = joinContents (parRun be ps order fuel).dict := by
  cases hres : (searchMax be
      (if ps "size" = none then pinsert ps "size" default_page_size else ps)
      [] [] fuel).res with
  | found mp ls =>
    simp only [parRun, hres, parAssemble, joinContents] at h ⊢
    simp only [Outcome.ok.injEq] at h
    subst h
    rfl
  | notFound =>
    simp only [parRun, hres, parAssemble, joinContents] at h ⊢
    simp only [Outcome.ok.injEq] at h
    subst h
    rfl
  | bareInt p => simp [parRun, hres] at h
  | keyError => simp [parRun, hres] at h
  | fetchErr e => simp [parRun, hres] at h
  | diverge => simp [parRun, hres] at h

/-- Claim C2 fails on the code: `_fetch_all_parallel` concatenates
`pages_dict.values()` in Python `dict` insertion order, not in ascending
page-number order. On `c2be` the probe retains pages 1 and 5 (in that
insertion order) before the workers insert pages 2, 3, 4, so the merged
items come out as `[1, 50, 2, 3, 4]` — where `[1, 2, 3, 4, 50]` is the
ascending-page-number concatenation of exactly the same fetched pages.
The completion order `[2, 3, 4]` used here is precisely the submitted
page list, so the refutation does not rest on an exotic schedule. -/
theorem C2_counterexample :
    (parRun c2be pempty [2, 3, 4] 30).submitted = [2, 3, 4] ∧
    ¬ (∀ r : ParAggResult Nat,
        (parRun c2be pempty [2, 3, 4] 30).out = Outcome.ok r →
        r.content = ascMerge (parRun c2be pempty [2, 3, 4] 30).dict) := by
  refine ⟨by decide, fun h => ?_⟩
  exact absurd
    (h { content := [1, 50, 2, 3, 4], pages := 5, total := 501 } (by decide))
    (by decide)

/-- Claim C2 amended: the items of a successful parallel aggregation are
the concatenation of the final page map's pages in map insertion order —
probe pages in probe order first, then worker pages in completion
order — which is a permutation of the ascending-page-number
concatenation of those same pages, but need not equal it. -/
theorem C2_amended (be : Backend α) (ps : Params) (order : List Int)
    (fuel : Nat) (r : ParAggResult α)
    (h : (parRun be ps order fuel).out = Outcome.ok r) :
    r.content.Perm (ascMerge (parRun be ps order fuel).dict) := by
  rw [parRun_content be ps order fuel r h]
  unfold joinContents ascMerge
  exact (perm_flatten ((List.perm_insertionSort _ _).map _)).symm

/-- Witness for `C2_amended` at the concrete five-page run. -/
theorem C2_amended_witness :
    (({ content := [1, 50, 2, 3, 4], pages := 5, total := 501 } :
        ParAggResult Nat).content).Perm
      (ascMerge (parRun c2be pempty [2, 3, 4] 30).dict) :=
  C2_amended c2be pempty [2, 3, 4] 30 _ (by decide)

/-! ### C3 -/

/-- Claim C3 is contradicted by the worker pool: on `c3be`, fetching
page 3 raises (`none` = non-200 status), yet `_fetch_all_parallel`
catches the worker's exception (source lines 421-422), merely prints it,
and returns a successful result whose items `[1, 50, 2, 4]` silently
miss page 3 — a partial result instead of a propagated error. -/
theorem C3_evidence :
    c3be (some 3) = none ∧
    (parRun c3be pempty [2, 3, 4] 30).out =
      Outcome.ok { content := [1, 50, 2, 4], pages := 5, total := 501 } := by
  constructor
  · rfl
  · decide

/-! ### C4 -/

/-- Claim C4 is contradicted by line 316 of the source: when the
exponential phase stops on a page with `has_more == false` and nonzero
item count (here page 1 itself), `_fetch_all_parallel_search_max`
executes `return page` — a bare `int`, not the `(page, size)` pair — so
the caller's unpacking `max_page, last_page_size = ...` raises
`TypeError` instead of receiving the pair. -/
theorem C4_evidence :
    (searchMax c4be pempty [] [] 30).res = ProbeResult.bareInt 1 ∧
    (parRun c4be pempty [] 30).out = Outcome.err PyError.typeErrorUnpack := by
  constructor
  · decide
  · decide

/-! ### C5 -/

/-- Claim C5's exhaustion scenario is contradicted by line 314: on a
backend where every probed page reports `has_more == true`, the
exponential phase fetches pages 1, 10, ..., 10^9, leaves `page = 10^10`,
and then `pages_dict[page]` raises `KeyError` — the probe never reaches
the `return -1, -1` at line 348. The second conjunct shows the other
scenario of the claim does hold: when the binary-search bounds cross
(empty-result backend `c8be`), the probe returns the `(-1, -1)`
sentinel. -/
theorem C5_evidence :
    ((searchMax c5be pempty [] [] 30).res = ProbeResult.keyError ∧
     (searchMax c5be pempty [] [] 30).trace =
       [1, 10, 100, 1000, 10000, 100000, 1000000, 10000000, 100000000,
        1000000000]) ∧
    (searchMax c8be pempty [] [] 30).res = ProbeResult.notFound := by
  exact ⟨⟨by decide, by decide⟩, by decide⟩

/-! ### C6 -/

/-- Helper: a successful `_fetch_page` call reports exactly the paging
metadata `probeSees` reads off the backend. -/
theorem ok_probeSees {be : Backend α} {ps : Params} {p : Int}
    {pd : PageData α} (h : (fetch_page be ps (some p)).1 = Except.ok pd) :
    probeSees be p = some (pd.has_more, pd.size) := by
  cases hbe : be (some p) with
  | none => simp [fetch_page, hbe] at h
  | some raw =>
    cases hc : raw.content with
    | none => simp [fetch_page, hbe, hc] at h
    | some items =>
      simp only [fetch_page, hbe, hc] at h
      simp only [Except.ok.injEq] at h
      subst h
      simp [probeSees, hbe, hc]

/-- Helper: conversely, whatever `probeSees` reports is realised by a
successful `_fetch_page` call under any parameter mapping. -/
theorem probeSees_ok {be : Backend α} {p : Int} {hm : Bool} {s : Int}
    (h : probeSees be p = some (hm, s)) (ps : Params) :
    ∃ pd : PageData α, (fetch_page be ps (some p)).1 = Except.ok pd ∧
      pd.has_more = hm ∧ pd.size = s := by
  cases hbe : be (some p) with
  | none => simp [probeSees, hbe] at h
  | some raw =>
    cases hc : raw.content with
    | none => simp [probeSees, hbe, hc] at h
    | some items =>
      simp only [probeSees, hbe, hc, Option.some.injEq, Prod.mk.injEq] at h
      refine ⟨{ content := items, size := raw.paging.size,
                total := raw.paging.total.getD raw.paging.size,
                has_more := raw.paging.has_more }, ?_, h.1, h.2⟩
      simp [fetch_page, hbe, hc]

/-- Helper: any `(page, size)` answer the binary-search loop returns
satisfies the acceptance condition: that page was fetched successfully,
reported `has_more == false`, and `size` is its nonzero item count. -/
theorem binLoop_found (be : Backend α) :
    ∀ (fuel : Nat) (ps : Params) (d : Dict α) (tr : List Int)
      (lo hi cand p s : Int),
      (binLoop be ps d tr lo hi cand fuel).res = ProbeResult.found p s →
      probeSees be p = some (false, s) ∧ s ≠ 0 := by
  intro fuel
  induction fuel with
  | zero => intro ps d tr lo hi cand p s h; simp [binLoop] at h
  | succ n ih =>
    intro ps d tr lo hi cand p s h
    by_cases hlh : lo ≤ hi
    · cases hfp : (fetch_page be ps (some cand)).1 with
      | error e => simp [binLoop, hlh, hfp] at h
      | ok pd =>
        simp only [binLoop, hlh, if_true, hfp] at h
        by_cases hm : pd.has_more = true
        · rw [if_pos hm] at h
          exact ih _ _ _ _ _ _ _ _ h
        · rw [if_neg hm] at h
          by_cases hs : pd.size ≠ 0
          · rw [if_pos hs] at h
            simp only [ProbeResult.found.injEq] at h
            obtain ⟨hp, hsz⟩ := h
            subst hp; subst hsz
            have := ok_probeSees hfp
            rw [Bool.not_eq_true] at hm
            rw [hm] at this
            exact ⟨this, hs⟩
          · rw [if_neg hs] at h
            exact ih _ _ _ _ _ _ _ _ h
    · simp [binLoop, hlh] at h

/-- Claim C6: the binary-search phase obeys the tie-break policy. First
conjunct: while the bounds have not crossed, a candidate that reports
`has_more == false` with nonzero size terminates the loop, returned
together with its size (and by `binLoop`'s defining equations the other
two cases recurse on `[lower, cand-1]` resp. `[cand+1, upper]` until the
bounds cross). Second conjunct: any answer the loop ever returns was a
fetched candidate reporting `has_more == false` with nonzero size. -/
theorem C6_binary_tiebreak (be : Backend α) (ps : Params) (d : Dict α)
    (tr : List Int) (lo hi cand p s : Int) (fuel : Nat) :
    (probeSees be cand = some (false, s) → s ≠ 0 → lo ≤ hi →
      (binLoop be ps d tr lo hi cand (fuel + 1)).res =
        ProbeResult.found cand s) ∧
    ((binLoop be ps d tr lo hi cand fuel).res = ProbeResult.found p s →
      probeSees be p = some (false, s) ∧ s ≠ 0) := by
  constructor
  · intro hsee hs hlh
    obtain ⟨pd, hfp, hm, hsz⟩ := probeSees_ok hsee ps
    simp only [binLoop, hlh, if_true, hfp]
    rw [hm, hsz]
    simp [hs]
  · exact binLoop_found be fuel ps d tr lo hi cand p s

/-- Witness for `C6_binary_tiebreak` at the `c2be` binary search. -/
theorem C6_witness :
    (binLoop c2be pempty [] [] 1 10 5 7).res = ProbeResult.found 5 1 ∧
    (probeSees c2be 5 = some (false, 1) ∧ (1 : Int) ≠ 0) :=
  ⟨(C6_binary_tiebreak c2be pempty [] [] 1 10 5 0 1 6).1 (by decide)
      (by decide) (by decide),
   (C6_binary_tiebreak c2be pempty [] [] 1 10 5 5 1 7).2 (by decide)⟩

/-! ### C7 -/

/-- Claim C7 fails on the code, even on a perfectly consistent backend
(`c7be`: pages 1-100 full with `has_more == true`, page 101 the nonzero
last page, everything beyond empty). The exponential phase fetches pages
1, 10, 100, 1000; the binary search over `[100, 1000]` then walks
500, 299, 199, 149, 124, 111, 105, 102 — and its next midpoint is 100,
re-fetching the page the exponential phase already fetched. The
completion order used for the worker pool is exactly the submitted page
list, so the duplicate arises purely inside the probe. -/
theorem C7_counterexample :
    (parRun c7be pempty (parRun c7be pempty [] 50).submitted 50).submitted =
      (parRun c7be pempty [] 50).submitted ∧
    (parRun c7be pempty (parRun c7be pempty [] 50).submitted 50).trace.count
        100 = 2 ∧
    ¬ (parRun c7be pempty
        (parRun c7be pempty [] 50).submitted 50).trace.Nodup := by
  exact ⟨by decide, by decide, by decide⟩

/-- Helper: every member of `range(1, mp)` lies in `[1, mp)`. -/
theorem intRange1_mem {mp p : Int} (h : p ∈ intRange1 mp) :
    1 ≤ p ∧ p < mp := by
  unfold intRange1 at h
  obtain ⟨i, hi, rfl⟩ := List.mem_map.mp h
  have hi' := List.mem_range.mp hi
  simp only [Int.ofNat_eq_natCast]
  omega

/-- Helper: `range(1, mp)` has no duplicates. -/
theorem intRange1_nodup (mp : Int) : (intRange1 mp).Nodup := by
  unfold intRange1
  refine (List.nodup_range _).map ?_
  intro a b hab
  simp only [Int.ofNat_eq_natCast] at hab
  omega

/-- Claim C7 amended: the worker pool itself never requests the same page
number twice, and never requests a page already retained from the probe
phases; the probe's binary-search phase, however, can re-fetch a page
that its exponential phase already fetched (as the counterexample's
re-fetch of page 100 shows). -/
theorem C7_amended (be : Backend α) (ps : Params) (order : List Int)
    (fuel : Nat) :
    (parRun be ps order fuel).submitted.Nodup ∧
    ∀ p ∈ (parRun be ps order fuel).submitted,
      p ∉ (parRun be ps order fuel).probeKeys := by
  cases hres : (searchMax be
      (if ps "size" = none then pinsert ps "size" default_page_size else ps)
      [] [] fuel).res with
  | found mp ls =>
    simp only [parRun, hres, parAssemble]
    constructor
    · exact (intRange1_nodup mp).filter _
    · intro p hp
      have := List.of_mem_filter hp
      simpa using this
  | notFound =>
    simp only [parRun, hres, parAssemble]
    constructor
    · exact (intRange1_nodup (-1)).filter _
    · intro p hp
      have := List.of_mem_filter hp
      simpa using this
  | bareInt q => simp [parRun, hres]
  | keyError => simp [parRun, hres]
  | fetchErr e => simp [parRun, hres]
  | diverge => simp [parRun, hres]

/-- Witness for `C7_amended` at the concrete five-page run. -/
theorem C7_amended_witness :
    (parRun c2be pempty [2, 3, 4] 30).submitted.Nodup ∧
    (2 : Int) ∉ (parRun c2be pempty [2, 3, 4] 30).probeKeys :=
  ⟨(C7_amended c2be pempty [2, 3, 4] 30).1,
   (C7_amended c2be pempty [2, 3, 4] 30).2 2 (by decide)⟩

/-! ### C8 -/

/-- Claim C8 fails on the code: on the empty-result backend `c8be`
(page 1 reports `has_more == false` with zero items), the probe does
return the failure sentinel, but only after entering the binary search
with `lower_bound = int(1/10) = 0` and first candidate `1 // 2 = 0`, so
it fetches page 0 — a page number below the valid range. -/
theorem C8_counterexample :
    (searchMax c8be pempty [] [] 30).res = ProbeResult.notFound ∧
    ¬ (∀ p ∈ (searchMax c8be pempty [] [] 30).trace, 1 ≤ p) := by
  exact ⟨by decide, by decide⟩

/-- Claim C8 amended: when the very first probed page reports
`has_more == false` with zero items, the probe enters the binary search
with lower bound 0 and fetches page 0; when page 0 in turn reports
`has_more == false` with zero items, the bounds cross immediately and
the probe returns the `(-1, -1)` failure sentinel, having fetched
exactly pages 1 and 0 (in that order). -/
theorem C8_amended (be : Backend α) (ps : Params) (f : Nat)
    (h1 : probeSees be 1 = some (false, 0))
    (h0 : probeSees be 0 = some (false, 0)) :
    (searchMax be ps [] [] (f + 2)).res = ProbeResult.notFound ∧
    (searchMax be ps [] [] (f + 2)).trace = [1, 0] := by
  obtain ⟨pd1, hfp1, hm1, hs1⟩ := probeSees_ok h1 ps
  obtain ⟨pd0, hfp0, hm0, hs0⟩ :=
    probeSees_ok h0 ((fetch_page be ps (some 1)).2)
  have he : expPhase be ps [] [] 1 10 =
      ((fetch_page be ps (some 1)).2, [(1, pd1)], [1], ExpOut.stop 1) := by
    rw [show (10 : Nat) = Nat.succ 9 from rfl]
    simp [expPhase, hfp1, hm1, dinsert]
  have hlk : dlookup [(1, pd1)] 1 = some pd1 := by simp [dlookup]
  have hsm : searchMax be ps [] [] (f + 2) =
      binLoop be ((fetch_page be ps (some 1)).2) [(1, pd1)] [1] 0 1 0
        (f + 2) := by
    simp only [searchMax, he, searchMaxCont, hlk, hs1]
    rw [show Int.fdiv 1 10 = 0 from by decide,
        show Int.fdiv 1 2 = 0 from by decide]
    simp
  have hb : binLoop be ((fetch_page be ps (some 1)).2) [(1, pd1)] [1] 0 1 0
      (f + 2) =
      ⟨(fetch_page be ((fetch_page be ps (some 1)).2) (some 0)).2,
        dinsert [(1, pd1)] 0 pd0, [1] ++ [0], ProbeResult.notFound⟩ := by
    rw [show f + 2 = Nat.succ (f + 1) from rfl]
    simp only [binLoop]
    rw [if_pos (by norm_num : (0 : Int) ≤ 1)]
    simp only [hfp0, hm0, hs0]
    norm_num
  rw [hsm, hb]
  exact ⟨rfl, rfl⟩

/-- Witness for `C8_amended` at the empty-result backend `c8be`. -/
theorem C8_amended_witness :
    (searchMax c8be pempty [] [] 30).res = ProbeResult.notFound ∧
    (searchMax c8be pempty [] [] 30).trace = [1, 0] :=
  C8_amended c8be pempty 28 (by decide) (by decide)

/-! ### C9 -/

/-- Claim C9 fails on the code: `_fetch_page` mutates the caller's
`get_params` in place (source lines 194-199) — here the empty mapping
acquires both a `size` and a `page` key. -/
theorem C9_counterexample :
    ¬ (∀ k : String, (fetch_page c9be pempty (some 3)).2 k = pempty k) := by
  intro h
  exact absurd (h "page") (by decide)

/-- Helper: updating one key of a parameter mapping leaves every other
key unchanged. -/
theorem pinsert_frame (m : Params) (key : String) (v : Int) {k : String}
    (h : k ≠ key) : pinsert m key v k = m k := by
  simp [pinsert, h]

/-- Helper: the parameter mapping `_fetch_page` leaves behind when it is
called without a page number. -/
theorem fetch_page_snd_none (be : Backend α) (ps : Params) :
    (fetch_page be ps none).2 =
      (if ps "size" = none then pinsert ps "size" default_page_size
       else ps) := by
  cases hbe : be none with
  | none => simp [fetch_page, hbe]
  | some raw =>
    cases hc : raw.content with
    | none => simp [fetch_page, hbe, hc]
    | some items => simp [fetch_page, hbe, hc]

/-- Helper: the parameter mapping `_fetch_page` leaves behind when it is
called with a page number. -/
theorem fetch_page_snd_some (be : Backend α) (ps : Params) (n : Int) :
    (fetch_page be ps (some n)).2 =
      pinsert
        (if ps "size" = none then pinsert ps "size" default_page_size
         else ps) "page" n := by
  cases hbe : be (some n) with
  | none => simp [fetch_page, hbe]
  | some raw =>
    cases hc : raw.content with
    | none => simp [fetch_page, hbe, hc]
    | some items => simp [fetch_page, hbe, hc]

/-- Helper: `_fetch_page` touches only the `size` and `page` keys of the
caller's mapping. -/
theorem fetch_page_frame (be : Backend α) (ps : Params) (pn : Option Int)
    {k : String} (h1 : k ≠ "size") (h2 : k ≠ "page") :
    (fetch_page be ps pn).2 k = ps k := by
  have hbase :
      (if ps "size" = none then pinsert ps "size" default_page_size else ps) k
        = ps k := by
    by_cases hs : ps "size" = none
    · rw [if_pos hs, pinsert_frame _ _ _ h1]
    · rw [if_neg hs]
  cases pn with
  | none => rw [fetch_page_snd_none]; exact hbase
  | some n => rw [fetch_page_snd_some, pinsert_frame _ _ _ h2]; exact hbase

/-- Helper: the sequential loop touches only `size` and `page`. -/
theorem fetch_all_from_frame (be : Backend α) (sz : Int) {k : String}
    (h1 : k ≠ "size") (h2 : k ≠ "page") :
    ∀ (fuel : Nat) (ps : Params) (acc : List α) (curr : Int),
      (fetch_all_from be sz ps acc curr fuel).2 k = ps k := by
  intro fuel
  induction fuel with
  | zero => intro ps acc curr; rfl
  | succ n ih =>
    intro ps acc curr
    cases hfp : (fetch_page be ps (some curr)).1 with
    | error e =>
      simp only [fetch_all_from, hfp]
      exact fetch_page_frame be ps (some curr) h1 h2
    | ok pd =>
      simp only [fetch_all_from, hfp]
      by_cases hm : pd.has_more = true
      · rw [if_pos hm, ih]
        exact fetch_page_frame be ps (some curr) h1 h2
      · rw [if_neg hm]
        exact fetch_page_frame be ps (some curr) h1 h2

/-- Helper: `_fetch_all` touches only `size` and `page`. -/
theorem fetch_all_frame (be : Backend α) (ps : Params) (fuel : Nat)
    {k : String} (h1 : k ≠ "size") (h2 : k ≠ "page") :
    (fetch_all be ps fuel).2 k = ps k := by
  have hbase :
      (if ps "size" = none then pinsert ps "size" default_page_size else ps) k
        = ps k := by
    by_cases hs : ps "size" = none
    · rw [if_pos hs, pinsert_frame _ _ _ h1]
    · rw [if_neg hs]
  cases hfp : (fetch_page be
      (if ps "size" = none then pinsert ps "size" default_page_size else ps)
      none).1 with
  | error e =>
    simp only [fetch_all, hfp]
    rw [fetch_page_frame _ _ _ h1 h2]
    exact hbase
  | ok pd =>
    simp only [fetch_all, hfp]
    by_cases hm : pd.has_more = true
    · rw [if_pos hm, fetch_all_from_frame be pd.size h1 h2]
      by_cases hcond : (fetch_page be
          (if ps "size" = none then pinsert ps "size" default_page_size
           else ps) none).2 "size" = none ∨
          (fetch_page be
            (if ps "size" = none then pinsert ps "size" default_page_size
             else ps) none).2 "size" ≠ some pd.size
      · rw [if_pos hcond, pinsert_frame _ _ _ h1,
            fetch_page_frame _ _ _ h1 h2]
        exact hbase
      · rw [if_neg hcond, fetch_page_frame _ _ _ h1 h2]
        exact hbase
    · rw [if_neg hm, fetch_page_frame _ _ _ h1 h2]
      exact hbase

/-- Helper: the exponential phase touches only `size` and `page`. -/
theorem expPhase_frame (be : Backend α) {k : String} (h1 : k ≠ "size")
    (h2 : k ≠ "page") :
    ∀ (n : Nat) (ps : Params) (d : Dict α) (tr : List Int) (page : Int),
      (expPhase be ps d tr page n).1 k = ps k := by
  intro n
  induction n with
  | zero => intro ps d tr page; rfl
  | succ m ih =>
    intro ps d tr page
    cases hfp : (fetch_page be ps (some page)).1 with
    | error e =>
      simp only [expPhase, hfp]
      exact fetch_page_frame be ps (some page) h1 h2
    | ok pd =>
      simp only [expPhase, hfp]
      by_cases hm : pd.has_more = true
      · rw [if_pos hm, ih]
        exact fetch_page_frame be ps (some page) h1 h2
      · rw [if_neg hm]
        exact fetch_page_frame be ps (some page) h1 h2

/-- Helper: the binary-search loop touches only `size` and `page`. -/
theorem binLoop_frame (be : Backend α) {k : String} (h1 : k ≠ "size")
    (h2 : k ≠ "page") :
    ∀ (n : Nat) (ps : Params) (d : Dict α) (tr : List Int) (lo hi cand : Int),
      (binLoop be ps d tr lo hi cand n).ps k = ps k := by
  intro n
  induction n with
  | zero => intro ps d tr lo hi cand; rfl
  | succ m ih =>
    intro ps d tr lo hi cand
    by_cases hlh : lo ≤ hi
    · cases hfp : (fetch_page be ps (some cand)).1 with
      | error e =>
        simp only [binLoop, hlh, if_true, hfp]
        exact fetch_page_frame be ps (some cand) h1 h2
      | ok pd =>
        simp only [binLoop, hlh, if_true, hfp]
        by_cases hm : pd.has_more = true
        · rw [if_pos hm, ih]
          exact fetch_page_frame be ps (some cand) h1 h2
        · rw [if_neg hm]
          by_cases hs : pd.size ≠ 0
          · rw [if_pos hs]
            exact fetch_page_frame be ps (some cand) h1 h2
          · rw [if_neg hs, ih]
            exact fetch_page_frame be ps (some cand) h1 h2
    · simp only [binLoop, hlh, if_false]

/-- Helper: the post-probe dispatch touches only `size` and `page`. -/
theorem searchMaxCont_frame (be : Backend α) {k : String} (h1 : k ≠ "size")
    (h2 : k ≠ "page") (ps : Params) (d : Dict α) (tr : List Int) (p : Int)
    (fuel : Nat) : (searchMaxCont be ps d tr p fuel).ps k = ps k := by
  cases hlk : dlookup d p with
  | none => simp [searchMaxCont, hlk]
  | some pd =>
    simp only [searchMaxCont, hlk]
    by_cases hs : pd.size ≠ 0
    · rw [if_pos hs]
    · rw [if_neg hs]
      exact binLoop_frame be h1 h2 fuel ps d tr _ _ _

/-- Helper: the whole bounds probe touches only `size` and `page`. -/
theorem searchMax_frame (be : Backend α) {k : String} (h1 : k ≠ "size")
    (h2 : k ≠ "page") (ps : Params) (d : Dict α) (tr : List Int)
    (fuel : Nat) : (searchMax be ps d tr fuel).ps k = ps k := by
  rcases he : expPhase be ps d tr 1 10 with ⟨ps', d', tr', out⟩
  have hps' : ps' k = ps k := by
    have h := expPhase_frame be h1 h2 10 ps d tr 1
    rw [he] at h
    exact h
  cases out with
  | fail e => simp only [searchMax, he]; exact hps'
  | stop p =>
    simp only [searchMax, he]
    rw [searchMaxCont_frame be h1 h2 ps' d' tr' p fuel]
    exact hps'
  | exhaust p =>
    simp only [searchMax, he]
    rw [searchMaxCont_frame be h1 h2 ps' d' tr' p fuel]
    exact hps'

/-- Helper: the worker pool touches only `size` and `page`. -/
theorem workers_frame (be : Backend α) {k : String} (h1 : k ≠ "size")
    (h2 : k ≠ "page") :
    ∀ (order : List Int) (ps : Params) (d : Dict α) (tr : List Int),
      (workers be ps d tr order).2.1 k = ps k := by
  intro order
  induction order with
  | nil => intro ps d tr; rfl
  | cons p rest ih =>
    intro ps d tr
    cases hfp : (fetch_page be ps (some p)).1 with
    | error e =>
      simp only [workers, hfp]
      rw [ih]
      exact fetch_page_frame be ps (some p) h1 h2
    | ok pd =>
      simp only [workers, hfp]
      rw [ih]
      exact fetch_page_frame be ps (some p) h1 h2

/-- Claim C9 amended: the fetch operations do mutate the caller's
query-parameter mapping — `_fetch_page` inserts `size` when absent and
sets `page` whenever a page number is supplied, and the aggregators do
the same through it — but the mutation is confined to exactly the keys
`size` and `page`: every other key of the caller's mapping is left
unchanged by `_fetch_page`, `_fetch_all` and `_fetch_all_parallel`. -/
theorem C9_amended (be : Backend α) (ps : Params) (pn : Option Int)
    (order : List Int) (fuel : Nat) (k : String)
    (h1 : k ≠ "size") (h2 : k ≠ "page") :
    (fetch_page be ps pn).2 k = ps k ∧
    (fetch_all be ps fuel).2 k = ps k ∧
    (parRun be ps order fuel).params k = ps k := by
  refine ⟨fetch_page_frame be ps pn h1 h2, fetch_all_frame be ps fuel h1 h2, ?_⟩
  have hbase :
      (if ps "size" = none then pinsert ps "size" default_page_size else ps) k
        = ps k := by
    by_cases hs : ps "size" = none
    · rw [if_pos hs, pinsert_frame _ _ _ h1]
    · rw [if_neg hs]
  have hsm := searchMax_frame be h1 h2
    (if ps "size" = none then pinsert ps "size" default_page_size else ps)
    [] [] fuel
  cases hres : (searchMax be
      (if ps "size" = none then pinsert ps "size" default_page_size else ps)
      [] [] fuel).res with
  | found mp ls =>
    simp only [parRun, hres, parAssemble]
    rw [workers_frame be h1 h2, hsm]
    exact hbase
  | notFound =>
    simp only [parRun, hres, parAssemble]
    rw [workers_frame be h1 h2, hsm]
    exact hbase
  | bareInt q =>
    simp only [parRun, hres]
    rw [hsm]
    exact hbase
  | keyError =>
    simp only [parRun, hres]
    rw [hsm]
    exact hbase
  | fetchErr e =>
    simp only [parRun, hres]
    rw [hsm]
    exact hbase
  | diverge =>
    simp only [parRun, hres]
    rw [hsm]
    exact hbase

/-- Witness for `C9_amended` at a key the engine never touches. -/
theorem C9_amended_witness :
    (fetch_page c2be pempty (some 2)).2 "q" = pempty "q" ∧
    (fetch_all c2be pempty 30).2 "q" = pempty "q" ∧
    (parRun c2be pempty [2, 3, 4] 30).params "q" = pempty "q" :=
  C9_amended c2be pempty (some 2) [2, 3, 4] 30 "q" (by decide) (by decide)

/-! ### C10 -/

/-- Helper: a member of the page map after an insertion was already in
the map or carries the inserted key. -/
theorem dinsert_mem {d : Dict α} {k : Int} {v : PageData α}
    {kv : Int × PageData α} (h : kv ∈ dinsert d k v) : kv ∈ d ∨ kv.1 = k := by
  unfold dinsert at h
  by_cases hc : d.any (fun kv => kv.1 == k)
  · rw [if_pos hc] at h
    obtain ⟨x, hx, hmap⟩ := List.mem_map.mp h
    by_cases hxk : (x.1 == k) = true
    · rw [if_pos hxk] at hmap
      right
      rw [← hmap]
    · rw [if_neg hxk] at hmap
      left
      exact hmap ▸ hx
  · rw [if_neg hc] at h
    rcases List.mem_append.mp h with h' | h'
    · exact Or.inl h'
    · right
      have := List.mem_singleton.mp h'
      rw [this]

/-- Helper: a member of the page map after the worker-pool collection
loop was already in the map or carries a submitted page number. -/
theorem workers_mem (be : Backend α) :
    ∀ (order : List Int) (ps : Params) (d : Dict α) (tr : List Int)
      (kv : Int × PageData α),
      kv ∈ (workers be ps d tr order).1 → kv ∈ d ∨ kv.1 ∈ order := by
  intro order
  induction order with
  | nil => intro ps d tr kv h; exact Or.inl h
  | cons p rest ih =>
    intro ps d tr kv h
    cases hfp : (fetch_page be ps (some p)).1 with
    | error e =>
      simp only [workers, hfp] at h
      rcases ih _ _ _ _ h with h' | h'
      · exact Or.inl h'
      · exact Or.inr (List.mem_cons_of_mem _ h')
    | ok pd =>
      simp only [workers, hfp] at h
      rcases ih _ _ _ _ h with h' | h'
      · rcases dinsert_mem h' with h'' | h''
        · exact Or.inl h''
        · exact Or.inr (by rw [h'']; exact List.mem_cons_self _ _)
      · exact Or.inr (List.mem_cons_of_mem _ h')

/-- Claim C10: `_fetch_all_parallel` deletes from the page map every
probed page whose number exceeds the discovered `max_page` (source lines
388-391) before the worker pool adds only pages of `range(1, max_page)`,
so every page of the final map has number at most `max_page`, and the
returned items are exactly the concatenation of that cleaned map's
pages — probed pages beyond the boundary contribute nothing. The
hypothesis states that the completion order consists of submitted page
numbers, which is how the worker pool produces it. -/
theorem C10_confirmed (be : Backend α) (ps : Params) (order : List Int)
    (fuel : Nat) (r : ParAggResult α)
    (hord : ∀ p ∈ order, p ∈ (parRun be ps order fuel).submitted)
    (h : (parRun be ps order fuel).out = Outcome.ok r) :
    (∀ kv ∈ (parRun be ps order fuel).dict,
        kv.1 ≤ (parRun be ps order fuel).maxPage) ∧
    r.content = joinContents (parRun be ps order fuel).dict := by
  refine ⟨?_, parRun_content be ps order fuel r h⟩
  cases hres : (searchMax be
      (if ps "size" = none then pinsert ps "size" default_page_size else ps)
      [] [] fuel).res with
  | found mp ls =>
    simp only [parRun, hres, parAssemble] at hord ⊢
    intro kv hkv
    rcases workers_mem be order _ _ _ kv hkv with h' | h'
    · exact of_decide_eq_true (List.mem_filter.mp h').2
    · have hsub := hord kv.1 h'
      have hin := List.mem_filter.mp hsub
      exact le_of_lt (intRange1_mem hin.1).2
  | notFound =>
    simp only [parRun, hres, parAssemble] at hord ⊢
    intro kv hkv
    rcases workers_mem be order _ _ _ kv hkv with h' | h'
    · exact of_decide_eq_true (List.mem_filter.mp h').2
    · have hsub := hord kv.1 h'
      have hin := List.mem_filter.mp hsub
      exact le_of_lt (intRange1_mem hin.1).2
  | bareInt q => simp [parRun, hres] at h
  | keyError => simp [parRun, hres] at h
  | fetchErr e => simp [parRun, hres] at h
  | diverge => simp [parRun, hres] at h

/-- Witness for `C10_confirmed` at the concrete five-page run. -/
theorem C10_confirmed_witness :
    (∀ kv ∈ (parRun c2be pempty [2, 3, 4] 30).dict,
        kv.1 ≤ (parRun c2be pempty [2, 3, 4] 30).maxPage) ∧
    ({ content := [1, 50, 2, 3, 4], pages := 5, total := 501 } :
        ParAggResult Nat).content =
      joinContents (parRun c2be pempty [2, 3, 4] 30).dict :=
  C10_confirmed c2be pempty [2, 3, 4] 30 _ (by decide) (by decide)
